import Mathlib

/-!
Verification of the goma CSV-to-SQL converter (`src/lib.rs`) against its
natural-language specification.  The Rust code is shallowly embedded: pure
functions become Lean functions, the record loop of `generate_sql` becomes a
fold over an explicit state record, and the file-system facing entry points
(`convert`, `generate_sql_file`, `append_file_content`) become functions over
an explicit file-system map that return the trace of effects they perform.
-/

namespace Goma

/-- Configuration record for one conversion run, following the `Arguments`
struct in `src/lib.rs`.  The Rust `prefix` and `suffix` fields are named
`prefix_path` and `suffix_path` here because their original names are Lean
keywords; the `delimiter` byte is a `Nat`. -/
structure Arguments where
  source : String
  target : String
  target_type : String
  delimiter : Nat
  has_headers : Bool
  table : String
  columns : List String
  chunk : Nat
  chunk_insert : Nat
  prefix_path : String
  suffix_path : String
  with_transaction : Bool
  typed : Bool

/-- The single-quote character (code point 39). -/
def squote : Char := Char.ofNat 39

/-- The one-character string holding a single quote. -/
def squoteS : String := String.mk [squote]

/-- Character-level model of the Rust call that replaces every single quote by
two single quotes (`result.replace` with a one-character pattern). -/
def replaceQuotes : List Char → List Char
  | [] => []
  | c :: cs =>
    if c = squote then squote :: squote :: replaceQuotes cs
    else c :: replaceQuotes cs

/-- The string with every embedded single quote doubled. -/
def escapeQuotes (s : String) : String := String.mk (replaceQuotes s.data)

/-- Splits the longest run of decimal digits off the front of a character
list, returning the digits and the remainder. -/
def splitDigits : List Char → List Char × List Char
  | [] => ([], [])
  | c :: cs =>
    if c.isDigit then
      let p := splitDigits cs
      (c :: p.1, p.2)
    else ([], c :: cs)

/-- Accepts the rest of a float literal after the mantissa: either the input
is exhausted, or an exponent marker `e`/`E` followed by an optional sign and
at least one digit consumes the whole input. -/
def expPart : List Char → Bool
  | [] => true
  | c :: cs =>
    if c = 'e' ∨ c = 'E' then
      let cs2 :=
        match cs with
        | d :: ds => if d = '+' ∨ d = '-' then ds else d :: ds
        | [] => []
      let p := splitDigits cs2
      !p.1.isEmpty && p.2.isEmpty
    else false

/-- Accepts the mantissa-plus-exponent part of a float literal (the part after
the optional leading sign): digits, digits-dot-optional-digits, or
dot-digits, each followed by an optional exponent, consuming the whole
input. -/
def numberPart (l : List Char) : Bool :=
  let p := splitDigits l
  match p.2 with
  | '.' :: rest2 =>
    let q := splitDigits rest2
    (!p.1.isEmpty || !q.1.isEmpty) && expPart q.2
  | rest => !p.1.isEmpty && expPart rest

/-- Model of `is_number` in `src/lib.rs`: whether `str.parse` to a 64-bit
float succeeds.  The accepted language is that of Rust float parsing: an
optional leading sign followed either by `inf`, `infinity` or `nan`
(case-insensitively) or by a decimal mantissa with optional fraction and
optional exponent; the empty string is rejected. -/
def is_number (str : String) : Bool :=
  if str.isEmpty then false
  else
    let l2 :=
      match str.data with
      | c :: cs => if c = '+' ∨ c = '-' then cs else c :: cs
      | [] => []
    let low := l2.map Char.toLower
    low == "inf".data || low == "infinity".data || low == "nan".data || numberPart l2

/-- ASCII lowercasing of a string (the Rust `to_lowercase` on the ASCII
inputs the converter compares against). -/
def toLowerStr (s : String) : String := String.mk (s.data.map Char.toLower)

/-- Model of `is_boolean` in `src/lib.rs`: the lowercased string equals
`true` or `false`. -/
def is_boolean (str : String) : Bool :=
  let tr := "true"
  let fs := "false"
  tr == toLowerStr str || fs == toLowerStr str

/-- Model of `get_value` in `src/lib.rs`: typed rendering of one raw field
value as a SQL literal. -/
def get_value (result : String) : String :=
  if is_number result then result
  else if is_boolean result then result
  else if result.isEmpty then "NULL"
  else squoteS ++ escapeQuotes result ++ squoteS

/-- One iteration of the accumulation loop in `get_values`: append the current
separator and the rendered field to the accumulated text, then set the
separator to comma-space.  The pair holds the accumulated text and the
separator. -/
def valuesStep (args : Arguments) (acc : String × String) (result : String) : String × String :=
  (acc.1 ++ acc.2 ++
    (if args.typed then get_value result
     else squoteS ++ escapeQuotes result ++ squoteS),
   ", ")

/-- Model of `get_values` in `src/lib.rs`: renders one record as a
parenthesised tuple of SQL literals. -/
def get_values (args : Arguments) (record : List String) : String :=
  let p := record.foldl (valuesStep args) ("", "")
  "(" ++ p.1 ++ ")"

/-- Model of `get_fields` in `src/lib.rs`: the header record is used exactly
when no explicit columns are configured and the input has headers; otherwise
the configured columns are used. -/
def get_fields (args : Arguments) (headers : List String) : List String :=
  if args.columns.isEmpty && args.has_headers then headers else args.columns

/-- Model of `format_fields` in `src/lib.rs`: the field names interspersed
with comma-space and wrapped in parentheses. -/
def format_fields (fields : List String) : String :=
  "(" ++ String.intercalate ", " fields ++ ")"

/-- State threaded through the record loop of `generate_sql`: the two chunk
counters, the pending separator, and the text written so far. -/
structure GenState where
  chunk_count : Nat
  chunk_insert_count : Nat
  insert_separator : String
  out : String

/-- One iteration of the record loop in `generate_sql` of `src/lib.rs`. -/
def genStep (args : Arguments) (insert_fields : String) (st : GenState) (row : List String) :
    GenState :=
  let st1 :=
    if st.chunk_insert_count = 0 then
      let st0 :=
        if args.chunk > 0 ∧ st.chunk_count = args.chunk then
          { st with out := st.out ++ ";\n\ncommit;\n\nbegin transaction", chunk_count := 0 }
        else st
      { st0 with
          out := st0.out ++ st0.insert_separator ++ "insert into " ++ args.table ++ " " ++
            insert_fields ++ " values",
          insert_separator := "",
          chunk_count := st0.chunk_count + 1 }
    else st
  let st2 := { st1 with out := st1.out ++ st1.insert_separator ++ "\n" ++ get_values args row }
  if args.chunk_insert > 0 then
    if args.chunk_insert = st2.chunk_insert_count + 1 then
      { st2 with chunk_insert_count := 0, insert_separator := ";\n\n" }
    else
      { st2 with chunk_insert_count := st2.chunk_insert_count + 1, insert_separator := "," }
  else
    { st2 with insert_separator := ";\n\n" }

/-- Model of `generate_sql` in `src/lib.rs`: the text written to the output
sink for a stream of successfully parsed records. -/
def generate_sql (args : Arguments) (headers : List String) (records : List (List String)) :
    String :=
  let insert_fields := format_fields (get_fields args headers)
  let st0 : GenState :=
    if args.with_transaction then
      { chunk_count := 0, chunk_insert_count := 0, insert_separator := ";\n\n",
        out := "begin transaction" }
    else
      { chunk_count := 0, chunk_insert_count := 0, insert_separator := "", out := "" }
  let stF := records.foldl (genStep args insert_fields) st0
  stF.out ++ (if args.with_transaction then ";\n\ncommit;" else ";")

/-- The opening-brace character (code point 123). -/
def openBrace : Char := Char.ofNat 123

/-- The closing-brace character (code point 125). -/
def closeBrace : Char := Char.ofNat 125

/-- Drops spaces from both ends of a character list (the template engine
allows padding around a placeholder name). -/
def trimSpaces (l : List Char) : List Char :=
  ((l.dropWhile (fun c => c = ' ')).reverse.dropWhile (fun c => c = ' ')).reverse

/-- Modelled from the spec: single-variable template rendering performed by
the external TinyTemplate crate, which is not part of this repository
(section 4.4 of the specification).  The scanner copies plain characters; a
brace-delimited placeholder whose trimmed name is `table` is replaced by the
table name; any other placeholder name, and an unclosed placeholder, is a
rendering error.  The boolean argument records whether the scanner is inside
a placeholder, with the accumulator holding the placeholder name read so far
in reverse. -/
def renderT (table : String) : List Char → List Char → Bool → Except Unit String
  | [], _, false => Except.ok ""
  | [], _, true => Except.error ()
  | c :: cs, acc, true =>
    if c = closeBrace then
      if String.mk (trimSpaces acc.reverse) = "table" then
        Except.map (fun r => table ++ r) (renderT table cs [] false)
      else Except.error ()
    else renderT table cs (c :: acc) true
  | c :: cs, acc, false =>
    if c = openBrace then renderT table cs [] true
    else Except.map (fun r => String.singleton c ++ r) (renderT table cs acc false)

/-- Renders a framing template against the table name. -/
def renderTemplate (template : String) (table : String) : Except Unit String :=
  renderT table template.data [] false

/-- The io error kinds the converter uses. -/
inductive ErrorKind where
  | notFound
  | invalidData
  | invalidInput
  deriving DecidableEq

/-- An observable effect on the outside world: creating the target file or
writing text to the output sink. -/
inductive Effect where
  | createFile (path : String)
  | write (s : String)
  deriving DecidableEq

/-- Model of `append_file_content` in `src/lib.rs` over an explicit file
system (a map from a path to the list of lines of the file, or `none` when
the file does not exist).  Returns the write effects performed, or the error
returned.  The Rust code reads the file line by line, appending a newline to
each line, renders the result as a template, and writes the rendered text
with a final newline. -/
def append_file_content (fs : String → Option (List String)) (path : String) (table : String) :
    Except ErrorKind (List Effect) :=
  match fs path with
  | none => Except.ok []
  | some ls =>
    let template := String.join (ls.map (fun l => l ++ "\n"))
    match renderTemplate template table with
    | Except.ok r => Except.ok [Effect.write (r ++ "\n")]
    | Except.error _ => Except.error ErrorKind.invalidInput

/-- Model of `generate_sql_file` in `src/lib.rs`: creates the target file,
then writes the rendered prefix content, the generated statements and the
rendered suffix content, stopping at the first error.  The pair holds the
effects performed before stopping and the error returned, if any. -/
def generate_sql_file (fs : String → Option (List String)) (args : Arguments)
    (headers : List String) (records : List (List String)) :
    List Effect × Option ErrorKind :=
  let created := [Effect.createFile args.target]
  match append_file_content fs args.prefix_path args.table with
  | Except.error e => (created, some e)
  | Except.ok w1 =>
    let soFar := created ++ w1 ++ [Effect.write (generate_sql args headers records)]
    match append_file_content fs args.suffix_path args.table with
    | Except.error e => (soFar, some e)
    | Except.ok w2 => (soFar ++ w2, none)

/-- Model of the `convert` method of `TargetSql` in `src/lib.rs`: the source
file's existence is checked before anything is opened or created; a missing
source yields the not-found error with an empty effect trace, and otherwise
the run proceeds as `generate_sql_file` on the parsed records. -/
def convert (fs : String → Option (List String)) (args : Arguments)
    (headers : List String) (records : List (List String)) :
    List Effect × Option ErrorKind :=
  if (fs args.source).isSome then generate_sql_file fs args headers records
  else ([], some ErrorKind.notFound)

/-- Specification-side quoting (section 4.2 of the specification): the raw
value surrounded by single quotes, with every embedded single quote
doubled. -/
def quoteSpec (v : String) : String :=
  String.mk (squote :: v.data.flatMap (fun c => if c = squote then [squote, squote] else [c]) ++ [squote])

/-- Joins a list of strings with the given separator between consecutive
elements (the specification's notion of statements separated by blank
lines). -/
def sepJoin (sep : String) : List String → String
  | [] => ""
  | [x] => x
  | x :: y :: xs => x ++ sep ++ sepJoin sep (y :: xs)

/-- Concatenation of a list of strings. -/
def catList : List String → String
  | [] => ""
  | x :: xs => x ++ catList xs

/-- The text of one INSERT statement for one record: the insert clause with
the resolved field list, the keyword `values`, and the record's rendered
value tuple on the following line. -/
def insertStmt (args : Arguments) (headers : List String) (row : List String) : String :=
  "insert into " ++ args.table ++ " " ++ format_fields (get_fields args headers) ++ " values" ++
    "\n" ++ get_values args row

/-- The rendering of a single field value by `get_values`: typed rendering
through `get_value` when `typed` is set, otherwise always quoted. -/
def renderedField (args : Arguments) (v : String) : String :=
  if args.typed then get_value v else squoteS ++ escapeQuotes v ++ squoteS

/-- A concrete configuration used to instantiate the universally quantified
theorems below on sample inputs. -/
def argsNum : Arguments :=
  ⟨"in.csv", "out.sql", "sql", 44, false, "people", ["a"], 0, 0, "pre.sql", "post.sql",
    false, true⟩

@[simp]
lemma data_mk (l : List Char) : (String.mk l).data = l := rfl

lemma replaceQuotes_eq_flatMap (l : List Char) :
    replaceQuotes l = l.flatMap (fun c => if c = squote then [squote, squote] else [c]) := by
  induction l with
  | nil => rfl
  | cons c cs ih =>
    by_cases hc : c = squote
    · simp [replaceQuotes, hc, ih]
    · simp [replaceQuotes, hc, ih]

lemma quote_src_eq_spec (r : String) : squoteS ++ escapeQuotes r ++ squoteS = quoteSpec r := by
  apply String.ext
  simp [String.data_append, squoteS, escapeQuotes, quoteSpec, replaceQuotes_eq_flatMap]

/-- C1.  When `typed` is true the value formatter classifies each raw field
value in priority order: a string accepted by 64-bit float parsing is emitted
unquoted, otherwise a case-insensitive `true`/`false` is emitted unquoted and
unchanged, otherwise the empty string becomes the literal `NULL`, and any
other string is single-quoted with embedded single quotes doubled.  In
particular `42`, `3.14`, `true` and `FALSE` stay unchanged, the empty string
yields `NULL`, the name O-apostrophe-Brien is quoted with the quote doubled,
and `abc` is simply quoted. -/
theorem c1_typed_value_classification :
    (∀ r : String, get_value r =
        if is_number r then r
        else if is_boolean r then r
        else if r = "" then "NULL"
        else quoteSpec r)
    ∧ get_value "42" = "42"
    ∧ get_value "3.14" = "3.14"
    ∧ get_value "true" = "true"
    ∧ get_value "FALSE" = "FALSE"
    ∧ get_value "" = "NULL"
    ∧ get_value (String.mk ['O', squote, 'B', 'r', 'i', 'e', 'n']) =
        String.mk [squote, 'O', squote, squote, 'B', 'r', 'i', 'e', 'n', squote]
    ∧ get_value "abc" = String.mk [squote, 'a', 'b', 'c', squote] := by
  refine ⟨?_, rfl, rfl, rfl, rfl, rfl, rfl, rfl⟩
  intro r
  by_cases he : r = ""
  · subst he; rfl
  · have hie : r.isEmpty = false := by
      rw [Bool.eq_false_iff]
      intro hcon
      exact he ((String.isEmpty_iff r).mp hcon)
    cases hn : is_number r <;> cases hb : is_boolean r <;>
      simp [get_value, hn, hb, hie, he, quote_src_eq_spec]

lemma foldl_valuesStep (args : Arguments) (vs : List String) :
    ∀ acc : String,
      (List.foldl (valuesStep args) (acc, ", ") vs).1 =
        acc ++ catList (vs.map (fun v => ", " ++ renderedField args v)) := by
  induction vs with
  | nil => intro acc; simp [catList, String.append_empty]
  | cons v vs ih =>
    intro acc
    rw [List.foldl_cons,
      show valuesStep args (acc, ", ") v = (acc ++ ", " ++ renderedField args v, ", ") from rfl,
      ih]
    simp [catList, String.append_assoc]

lemma sepJoin_cons_cons (sep x y : String) (xs : List String) :
    sepJoin sep (x :: y :: xs) = x ++ sep ++ sepJoin sep (y :: xs) := rfl

lemma sepJoin_cons (sep x : String) (xs : List String) :
    sepJoin sep (x :: xs) = x ++ catList (xs.map (fun s => sep ++ s)) := by
  induction xs generalizing x with
  | nil => simp [sepJoin, catList, String.append_empty]
  | cons y ys ih =>
    rw [show sepJoin sep (x :: y :: ys) = x ++ sep ++ sepJoin sep (y :: ys) from rfl, ih]
    simp [catList, String.append_assoc]

lemma get_values_eq (args : Arguments) (record : List String) :
    get_values args record = "(" ++ sepJoin ", " (record.map (renderedField args)) ++ ")" := by
  cases record with
  | nil => rfl
  | cons v vs =>
    rw [get_values, List.foldl_cons,
      show valuesStep args ("", "") v = ("" ++ "" ++ renderedField args v, ", ") from rfl,
      foldl_valuesStep, List.map_cons, sepJoin_cons]
    simp only [List.map_map, String.empty_append, String.append_assoc]
    rfl

/-- C2.  When `typed` is false every field of a record is emitted as a
single-quoted string literal with embedded single quotes doubled, and the
empty string is emitted as two single quotes, never as `NULL`. -/
theorem c2_untyped_always_quoted (args : Arguments) (record : List String)
    (h : args.typed = false) :
    get_values args record = "(" ++ sepJoin ", " (record.map quoteSpec) ++ ")"
    ∧ quoteSpec "" = squoteS ++ squoteS
    ∧ quoteSpec "" ≠ "NULL" := by
  refine ⟨?_, by decide, by decide⟩
  rw [get_values_eq]
  have hmap : record.map (renderedField args) = record.map quoteSpec := by
    apply List.map_congr_left
    intro v _
    rw [renderedField, h]
    simp [quote_src_eq_spec]
  rw [hmap]

/-- Witness instantiating `c2_untyped_always_quoted` on a concrete untyped
run. -/
theorem c2_untyped_always_quoted_witness :
    ({ argsNum with typed := false } : Arguments).typed = false ∧
    (get_values { argsNum with typed := false } ["x", ""] =
        "(" ++ sepJoin ", " (["x", ""].map quoteSpec) ++ ")"
      ∧ quoteSpec "" = squoteS ++ squoteS
      ∧ quoteSpec "" ≠ "NULL") :=
  ⟨rfl, c2_untyped_always_quoted { argsNum with typed := false } ["x", ""] rfl⟩

lemma genStep_simple (args : Arguments) (f : String) (h2 : args.chunk = 0)
    (h3 : args.chunk_insert = 0) (cc : Nat) (sep out : String) (row : List String) :
    genStep args f ⟨cc, 0, sep, out⟩ row =
      ⟨cc + 1, 0, ";\n\n",
        out ++ sep ++ "insert into " ++ args.table ++ " " ++ f ++ " values" ++ "\n" ++
          get_values args row⟩ := by
  simp [genStep, h2, h3, String.append_empty, String.append_assoc]

lemma genLoop_simple (args : Arguments) (f : String) (h2 : args.chunk = 0)
    (h3 : args.chunk_insert = 0) (records : List (List String)) :
    ∀ (cc : Nat) (sep out : String), records ≠ [] →
      (List.foldl (genStep args f) ⟨cc, 0, sep, out⟩ records).out =
        out ++ sep ++ sepJoin ";\n\n" (records.map (fun row =>
          "insert into " ++ args.table ++ " " ++ f ++ " values" ++ "\n" ++
            get_values args row)) := by
  induction records with
  | nil => intro cc sep out h; exact absurd rfl h
  | cons r rest ih =>
    intro cc sep out _
    rw [List.foldl_cons, genStep_simple args f h2 h3]
    cases rest with
    | nil =>
      simp [sepJoin, String.append_assoc]
    | cons r2 rest2 =>
      rw [ih (cc + 1) ";\n\n" _ (by simp)]
      simp only [List.map_cons, sepJoin_cons_cons]
      simp [String.append_assoc]

lemma not_prefix_begin_of_insert (rest : List Char) :
    ¬ ("begin transaction".data <+: ("insert into ".data ++ rest)) := by
  intro hp
  obtain ⟨t, ht⟩ := hp
  rw [show "begin transaction".data = 'b' :: "egin transaction".data from rfl,
    show "insert into ".data = 'i' :: "nsert into ".data from rfl] at ht
  simp only [List.cons_append, List.cons.injEq] at ht
  exact absurd ht.1 (by decide)

/-- C3.  With `withTransaction = false`, `chunk = 0` and `chunkInsert = 0`, a
stream of N ≥ 1 records produces exactly one single-row INSERT statement per
record, the statements separated by a semicolon and a blank line and the last
one terminated by a semicolon, and the output does not begin with
`begin transaction`. -/
theorem c3_plain_one_row_statements (args : Arguments) (headers : List String)
    (records : List (List String)) (h1 : args.with_transaction = false)
    (h2 : args.chunk = 0) (h3 : args.chunk_insert = 0) (h4 : records ≠ []) :
    generate_sql args headers records =
      sepJoin ";\n\n" (records.map (insertStmt args headers)) ++ ";"
    ∧ ¬ ("begin transaction".data <+: (generate_sql args headers records).data) := by
  have heq : generate_sql args headers records =
      sepJoin ";\n\n" (records.map (insertStmt args headers)) ++ ";" := by
    rw [generate_sql]
    simp only [h1, Bool.false_eq_true, if_false]
    rw [genLoop_simple args _ h2 h3 records 0 "" "" h4]
    rw [show List.map (insertStmt args headers) records =
        List.map (fun row => "insert into " ++ args.table ++ " " ++
          format_fields (get_fields args headers) ++ " values" ++ "\n" ++
          get_values args row) records
      from List.map_congr_left (fun row _ => rfl)]
    simp [String.empty_append]
  refine ⟨heq, ?_⟩
  obtain ⟨r, rest, hrec⟩ : ∃ r rest, records = r :: rest := by
    cases records with
    | nil => exact absurd rfl h4
    | cons r rest => exact ⟨r, rest, rfl⟩
  subst hrec
  have hshape : generate_sql args headers (r :: rest) =
      "insert into " ++ (args.table ++ (" " ++ (format_fields (get_fields args headers) ++
        (" values" ++ ("\n" ++ (get_values args r ++
        (catList ((rest.map (insertStmt args headers)).map (fun s => ";\n\n" ++ s)) ++
          ";"))))))) := by
    rw [heq, List.map_cons, sepJoin_cons, insertStmt]
    simp only [String.append_assoc]
  rw [hshape, String.data_append]
  exact not_prefix_begin_of_insert _

/-- Witness instantiating `c3_plain_one_row_statements` on a concrete run with
two records. -/
theorem c3_plain_one_row_statements_witness :
    argsNum.with_transaction = false ∧ argsNum.chunk = 0 ∧ argsNum.chunk_insert = 0 ∧
    ([["1"], ["2"]] : List (List String)) ≠ [] ∧
    (generate_sql argsNum [] [["1"], ["2"]] =
        sepJoin ";\n\n" ([["1"], ["2"]].map (insertStmt argsNum [])) ++ ";"
      ∧ ¬ ("begin transaction".data <+: (generate_sql argsNum [] [["1"], ["2"]]).data)) :=
  ⟨rfl, rfl, rfl, by decide,
    c3_plain_one_row_statements argsNum [] [["1"], ["2"]] rfl rfl rfl (by decide)⟩

/-- C4.  When the configured column list is non-empty it is used verbatim as
the insert clause's field list, joined by comma-space and parenthesised,
whatever the header settings; the header record is used exactly when the
column list is empty and headers are present. -/
theorem c4_columns_take_precedence :
    (∀ (args : Arguments) (headers : List String), args.columns ≠ [] →
        get_fields args headers = args.columns ∧
        format_fields (get_fields args headers) =
          "(" ++ String.intercalate ", " args.columns ++ ")")
    ∧ (∀ (args : Arguments) (headers : List String), args.columns = [] →
        args.has_headers = true → get_fields args headers = headers) := by
  constructor
  · intro args headers h
    have hc : args.columns.isEmpty = false := by
      cases hl : args.columns with
      | nil => exact absurd hl h
      | cons a l => rfl
    have hg : get_fields args headers = args.columns := by
      simp [get_fields, hc]
    exact ⟨hg, by rw [hg, format_fields]⟩
  · intro args headers h hh
    simp [get_fields, h, hh]

/-- Witness instantiating `c4_columns_take_precedence`: explicit columns beat
headers, and headers are used when columns are empty. -/
theorem c4_columns_take_precedence_witness :
    (({ argsNum with columns := ["a", "b"], has_headers := true } : Arguments).columns ≠ [] ∧
      (get_fields { argsNum with columns := ["a", "b"], has_headers := true } ["h1", "h2"] =
          ["a", "b"] ∧
        format_fields (get_fields { argsNum with columns := ["a", "b"], has_headers := true }
            ["h1", "h2"]) = "(" ++ String.intercalate ", " ["a", "b"] ++ ")"))
    ∧ get_fields { argsNum with columns := [], has_headers := true } ["h1", "h2"] =
        ["h1", "h2"] := by
  constructor
  · exact ⟨by decide,
      c4_columns_take_precedence.1 { argsNum with columns := ["a", "b"], has_headers := true }
        ["h1", "h2"] (by decide)⟩
  · exact c4_columns_take_precedence.2 { argsNum with columns := [], has_headers := true }
      ["h1", "h2"] rfl rfl

/-- C5.  With `chunkInsert = 2`, `chunk = 0` and no transaction, three records
yield one INSERT statement holding two value rows (the second row preceded by
a comma) followed, after the statement terminator and a blank line, by a
second INSERT statement holding the remaining row. -/
theorem c5_chunk_insert_two_batches (args : Arguments) (headers : List String)
    (r1 r2 r3 : List String) (h1 : args.chunk_insert = 2) (h2 : args.chunk = 0)
    (h3 : args.with_transaction = false) :
    generate_sql args headers [r1, r2, r3] =
      "insert into " ++ args.table ++ " " ++ format_fields (get_fields args headers) ++
        " values" ++ "\n" ++ get_values args r1 ++ "," ++ "\n" ++ get_values args r2 ++
        ";\n\n" ++
      "insert into " ++ args.table ++ " " ++ format_fields (get_fields args headers) ++
        " values" ++ "\n" ++ get_values args r3 ++ ";" := by
  simp [generate_sql, genStep, h1, h2, h3, String.append_empty, String.empty_append,
    String.append_assoc]

/-- Witness instantiating `c5_chunk_insert_two_batches` on three concrete
records. -/
theorem c5_chunk_insert_two_batches_witness :
    ({ argsNum with chunk_insert := 2 } : Arguments).chunk_insert = 2 ∧
    ({ argsNum with chunk_insert := 2 } : Arguments).chunk = 0 ∧
    ({ argsNum with chunk_insert := 2 } : Arguments).with_transaction = false ∧
    generate_sql { argsNum with chunk_insert := 2 } [] [["1"], ["2"], ["3"]] =
      "insert into " ++ ({ argsNum with chunk_insert := 2 } : Arguments).table ++ " " ++
        format_fields (get_fields { argsNum with chunk_insert := 2 } []) ++ " values" ++ "\n" ++
        get_values { argsNum with chunk_insert := 2 } ["1"] ++ "," ++ "\n" ++
        get_values { argsNum with chunk_insert := 2 } ["2"] ++ ";\n\n" ++
      "insert into " ++ ({ argsNum with chunk_insert := 2 } : Arguments).table ++ " " ++
        format_fields (get_fields { argsNum with chunk_insert := 2 } []) ++ " values" ++ "\n" ++
        get_values { argsNum with chunk_insert := 2 } ["3"] ++ ";" :=
  ⟨rfl, rfl, rfl,
    c5_chunk_insert_two_batches { argsNum with chunk_insert := 2 } [] ["1"] ["2"] ["3"]
      rfl rfl rfl⟩

lemma genStep_chunk1 (args : Arguments) (f : String) (h1 : args.chunk = 1)
    (h2 : args.chunk_insert = 0) (out : String) (row : List String) :
    genStep args f ⟨1, 0, ";\n\n", out⟩ row =
      ⟨1, 0, ";\n\n",
        out ++ ";\n\ncommit;\n\nbegin transaction" ++ ";\n\n" ++ "insert into " ++
          args.table ++ " " ++ f ++ " values" ++ "\n" ++ get_values args row⟩ := by
  simp [genStep, h1, h2, String.append_empty, String.append_assoc]

lemma genStep_first_tx (args : Arguments) (f : String) (h1 : args.chunk = 1)
    (h2 : args.chunk_insert = 0) (row : List String) :
    genStep args f ⟨0, 0, ";\n\n", "begin transaction"⟩ row =
      ⟨1, 0, ";\n\n",
        "begin transaction" ++ ";\n\n" ++ "insert into " ++ args.table ++ " " ++ f ++
          " values" ++ "\n" ++ get_values args row⟩ := by
  simp [genStep, h1, h2, String.append_empty, String.append_assoc]

lemma genLoop_chunk1 (args : Arguments) (f : String) (h1 : args.chunk = 1)
    (h2 : args.chunk_insert = 0) (rest : List (List String)) :
    ∀ out : String,
      (List.foldl (genStep args f) ⟨1, 0, ";\n\n", out⟩ rest).out =
        out ++ catList (rest.map (fun row =>
          ";\n\ncommit;\n\nbegin transaction" ++ ";\n\n" ++ "insert into " ++ args.table ++
            " " ++ f ++ " values" ++ "\n" ++ get_values args row)) := by
  induction rest with
  | nil => intro out; simp [catList, String.append_empty]
  | cons r2 rest2 ih =>
    intro out
    rw [List.foldl_cons, genStep_chunk1 args f h1 h2, ih]
    simp [catList, String.append_assoc]

/-- C6.  With `chunk = 1` and `withTransaction = true` every INSERT statement
sits in its own transaction block: the output starts with `begin transaction`
(whose semicolon is supplied by the first statement's separator), the cycle
semicolon, blank line, `commit;`, blank line, `begin transaction` is written
before every statement after the first, and the output ends with the
semicolon, blank line, `commit;` terminator. -/
theorem c6_chunk_one_transaction_blocks (args : Arguments) (headers : List String)
    (r : List String) (rest : List (List String)) (h1 : args.chunk = 1)
    (h2 : args.chunk_insert = 0) (h3 : args.with_transaction = true) :
    generate_sql args headers (r :: rest) =
      "begin transaction" ++ ";\n\n" ++ insertStmt args headers r ++
        catList (rest.map (fun v =>
          ";\n\ncommit;\n\nbegin transaction" ++ ";\n\n" ++ insertStmt args headers v)) ++
        ";\n\ncommit;" := by
  rw [generate_sql]
  simp only [h3, if_true]
  rw [List.foldl_cons, genStep_first_tx args _ h1 h2, genLoop_chunk1 args _ h1 h2]
  rw [show rest.map (fun v =>
        ";\n\ncommit;\n\nbegin transaction" ++ ";\n\n" ++ "insert into " ++ args.table ++
          " " ++ format_fields (get_fields args headers) ++ " values" ++ "\n" ++
          get_values args v) =
      rest.map (fun v =>
        ";\n\ncommit;\n\nbegin transaction" ++ ";\n\n" ++ insertStmt args headers v)
    from List.map_congr_left (fun v _ => by rw [insertStmt]; simp only [String.append_assoc])]
  rw [insertStmt]
  simp only [String.append_assoc]

/-- Witness instantiating `c6_chunk_one_transaction_blocks` on two concrete
records. -/
theorem c6_chunk_one_transaction_blocks_witness :
    ({ argsNum with chunk := 1, with_transaction := true } : Arguments).chunk = 1 ∧
    ({ argsNum with chunk := 1, with_transaction := true } : Arguments).chunk_insert = 0 ∧
    ({ argsNum with chunk := 1, with_transaction := true } : Arguments).with_transaction
      = true ∧
    generate_sql { argsNum with chunk := 1, with_transaction := true } [] [["1"], ["2"]] =
      "begin transaction" ++ ";\n\n" ++
        insertStmt { argsNum with chunk := 1, with_transaction := true } [] ["1"] ++
        catList ([["2"]].map (fun v =>
          ";\n\ncommit;\n\nbegin transaction" ++ ";\n\n" ++
            insertStmt { argsNum with chunk := 1, with_transaction := true } [] v)) ++
        ";\n\ncommit;" :=
  ⟨rfl, rfl, rfl,
    c6_chunk_one_transaction_blocks { argsNum with chunk := 1, with_transaction := true }
      [] ["1"] [["2"]] rfl rfl rfl⟩

set_option maxRecDepth 8192 in
/-- C7.  The statement-chunk cycling branch does not consult
`withTransaction`: with `withTransaction = false` and `chunk = 1`, two records
make the output contain the cycle semicolon, blank line, `commit;`, blank
line, `begin transaction`, even though the output does not start with (and
never opened) a `begin transaction`. -/
theorem c7_dangling_commit_without_transaction :
    (∃ a b : String,
        generate_sql { argsNum with chunk := 1 } [] [["1"], ["2"]] =
          a ++ ";\n\ncommit;\n\nbegin transaction" ++ b)
    ∧ ¬ ("begin transaction".data <+:
        (generate_sql { argsNum with chunk := 1 } [] [["1"], ["2"]]).data) := by
  constructor
  · exact ⟨"insert into people (a) values\n(1)",
      ";\n\ninsert into people (a) values\n(2);", by decide⟩
  · decide

/-- C10.  On an empty record stream `generate_sql` still writes the closing
terminator: the statement section is exactly one semicolon without
transactions, and exactly `begin transaction`, a semicolon, a blank line and
`commit;` with them, with no INSERT statement in between. -/
theorem c10_empty_stream_terminator (args : Arguments) (headers : List String) :
    generate_sql args headers [] =
      if args.with_transaction then "begin transaction;\n\ncommit;" else ";" := by
  cases h : args.with_transaction
  · simp [generate_sql, h, String.empty_append]
  · simp [generate_sql, h]

/-- A file system holding one prefix template with a well-formed table
placeholder. -/
def fsGood : String → Option (List String) := fun p =>
  if p = "pre.sql" then some ["create table {table} (id int);"] else none

/-- A file system holding one prefix template whose placeholder names an
unknown variable, which the template engine rejects. -/
def fsBad : String → Option (List String) := fun p =>
  if p = "pre.sql" then some ["create table {tabel} (id int);"] else none

/-- C8.  A prefix or suffix path that does not reference an existing file
produces no framing output and no error; an existing file is read, the table
name is substituted for the table placeholder, and the rendered text is
written followed by a trailing newline; a malformed template is a
configuration-style error (the invalid-input error kind). -/
theorem c8_framing_renderer :
    (∀ (fs : String → Option (List String)) (path table : String),
        fs path = none → append_file_content fs path table = Except.ok [])
    ∧ append_file_content fsGood "pre.sql" "users" =
        Except.ok [Effect.write "create table users (id int);\n\n"]
    ∧ append_file_content fsBad "pre.sql" "users" = Except.error ErrorKind.invalidInput := by
  refine ⟨?_, rfl, rfl⟩
  intro fs path table h
  simp [append_file_content, h]

/-- Witness instantiating the missing-file part of `c8_framing_renderer`. -/
theorem c8_framing_renderer_witness :
    ((fun _ => none) : String → Option (List String)) "absent.sql" = none ∧
    append_file_content (fun _ => none) "absent.sql" "users" = Except.ok [] :=
  ⟨rfl, c8_framing_renderer.1 (fun _ => none) "absent.sql" "users" rfl⟩

/-- C9.  When the source file does not exist `convert` returns the not-found
error and performs no effect at all: in particular the target file is not
created, the existence check coming before any write. -/
theorem c9_missing_source_not_found (fs : String → Option (List String)) (args : Arguments)
    (headers : List String) (records : List (List String)) (h : fs args.source = none) :
    convert fs args headers records = ([], some ErrorKind.notFound) := by
  simp [convert, h]

/-- Witness instantiating `c9_missing_source_not_found` on an empty file
system. -/
theorem c9_missing_source_not_found_witness :
    ((fun _ => none) : String → Option (List String)) argsNum.source = none ∧
    convert (fun _ => none) argsNum [] [] = ([], some ErrorKind.notFound) :=
  ⟨rfl, c9_missing_source_not_found (fun _ => none) argsNum [] [] rfl⟩

end Goma
